import Mathlib

/-!
Verification development for the Retrieval-Augmentation Orchestration Engine
of the chat-with-syllabus backend.

The Python sources embedded here (shallowly, as executable Lean functions) are:
  - backend/app/services/gemini_service.py  (RateLimiter, GeminiService)
  - backend/app/services/enhanced_rag.py    (EnhancedRAGService)
  - backend/app/routers/chat.py             (_prune_sessions)

Modelling conventions:
  - Python floats are modelled as exact rationals.
  - Python strings are Lean strings; character counts agree for the ASCII
    text involved.
  - External collaborators (the vector index and the generation backend) are
    parameters of the functions that call them.
-/

set_option maxRecDepth 100000

/-! ## Python string primitives -/

/-- Python whitespace predicate for ASCII strings: space, tab, newline,
carriage return, vertical tab, form feed. -/
def pyIsSpace (c : Char) : Bool :=
  c = ' ' || c = '\t' || c = '\n' || c = '\r' || c = Char.ofNat 11 || c = Char.ofNat 12

/-- Python str.strip(): remove leading and trailing whitespace. -/
def pyStrip (s : String) : String :=
  String.mk (((s.data.dropWhile pyIsSpace).reverse.dropWhile pyIsSpace).reverse)

/-- Python sep.join(parts). -/
def pyJoin (sep : String) : List String → String
  | [] => ""
  | [s] => s
  | s :: t :: rest => s ++ sep ++ pyJoin sep (t :: rest)

/-- Whether the second character list is a prefix of the first. -/
def startsWithList : List Char → List Char → Bool
  | _, [] => true
  | [], _ :: _ => false
  | c :: l, d :: m => c = d && startsWithList l m

/-- Whether `sub` occurs as a contiguous sublist of `l`. -/
def isSubstrList : List Char → List Char → Bool
  | [], sub => sub.isEmpty
  | c :: rest, sub => startsWithList (c :: rest) sub || isSubstrList rest sub

/-- Python substring containment (sub in s): sub occurs at some position of
s; an empty needle is contained in every string. -/
def pyContains (s sub : String) : Bool :=
  isSubstrList s.data sub.data

/-- Python str.lower() for the ASCII text in play. -/
def pyLower (s : String) : String :=
  String.mk (s.data.map Char.toLower)

/-- Replacement scan of Python str.replace(pat, rep) for a non-empty pattern:
replace non-overlapping occurrences left to right, resuming after each
replacement. Each step consumes at least one input character, so a fuel equal
to the input length suffices. -/
def pyReplaceAux (pat rep : List Char) : ℕ → List Char → List Char
  | _, [] => []
  | 0, l => l
  | fuel + 1, c :: rest =>
    if startsWithList (c :: rest) pat then
      rep ++ pyReplaceAux pat rep fuel ((c :: rest).drop pat.length)
    else c :: pyReplaceAux pat rep fuel rest

/-- Python s.replace(pat, rep); all patterns used by the source are
non-empty. -/
def pyReplace (s pat rep : String) : String :=
  String.mk (pyReplaceAux pat.data rep.data s.data.length s.data)

/-- Splitting scan of Python str.split(sep) for a one-character separator. -/
def splitCharAux (sep : Char) : List Char → List Char → List String
  | [], acc => [String.mk acc.reverse]
  | c :: rest, acc =>
    if c = sep then String.mk acc.reverse :: splitCharAux sep rest []
    else splitCharAux sep rest (c :: acc)

/-- Python s.split(sep) for a one-character separator sep. -/
def pySplitOnChar (s : String) (sep : Char) : List String :=
  splitCharAux sep s.data []

/-- Python "a or b" over optional strings, where None and the empty string are
falsy. -/
def orStr (a b : Option String) : Option String :=
  match a with
  | some s => if s = "" then b else some s
  | none => b

/-- Python "a or b" over optional numbers, where None and 0 are falsy. -/
def orNatOpt (a b : Option Nat) : Option Nat :=
  match a with
  | some n => if n = 0 then b else some n
  | none => b

/-- Zero-pad a digit string on the left to four characters. -/
def padZeros4 (s : String) : String :=
  String.mk (List.replicate (4 - s.length) '0') ++ s

/-- Model of Python f-string formatting with ".4f": fixed-point with four
decimals. Python formats the binary float with round-to-nearest; here the
score is an exact rational and is rounded to the nearest 1/10000. The
rounded integer round(q * 10000) = floor(q * 10000 + 1/2) is computed on the
reduced fraction as floor((2 * num * 10000 + den) / (2 * den)). -/
def formatFixed4 (q : ℚ) : String :=
  let n : ℤ := Int.ediv (2 * q.num * 10000 + (q.den : ℤ)) (2 * (q.den : ℤ))
  let sgn := if n < 0 then "-" else ""
  let m := n.natAbs
  sgn ++ toString (m / 10000) ++ "." ++ padZeros4 (toString (m % 10000))

/-- Sum of the lengths of a list of strings. -/
def sumLens (l : List String) : ℕ := (l.map String.length).sum

/-! ## gemini_service.py: RateLimiter -/

/-- Model of RateLimiter.acquire (gemini_service.py lines 26-36), with time
passed explicitly. `window` is the deque of recorded call timestamps and
`now` the clock value at entry. The while/popleft loop discarding entries
older than 60 seconds is List.dropWhile on the front of the deque. If the
pruned window has reached the cap, the caller sleeps for
60 - (now - window[0]) + 0.01 seconds (when positive) and the appended
timestamp is the clock value after the sleep. Returns the new window and the
clock value at exit (idealized: sleeps take exactly the requested time, all
other steps are instantaneous). -/
def acquire (max_per_minute : ℕ) (window : List ℚ) (now : ℚ) : List ℚ × ℚ :=
  let pruned := window.dropWhile (fun ts => decide (now - ts > 60))
  if max_per_minute ≤ pruned.length then
    let sleep_for : ℚ := 60 - (now - pruned.headI) + 1 / 100
    let now2 := if 0 < sleep_for then now + sleep_for else now
    (pruned ++ [now2], now2)
  else
    (pruned ++ [now], now)

/-- States of the rate limiter reachable by a sequence of acquire calls
starting from an empty window at time 0, with a monotone clock: each call may
start at any time not earlier than the end of the previous call. The pair is
(window, clock at end of last call). -/
inductive RateReachable (m : ℕ) : List ℚ → ℚ → Prop
  | init : RateReachable m [] 0
  | step (w : List ℚ) (t now : ℚ) :
      RateReachable m w t → t ≤ now →
      RateReachable m (acquire m w now).1 (acquire m w now).2

/-! ## gemini_service.py: GeminiService -/

/-- Outcome of one backend call (model.generate_content): either a response
text or a raised exception carrying a message. -/
inductive BackendOutcome where
  | ok (text : String)
  | err (msg : String)
deriving DecidableEq, Repr

/-- The external generation backend, as seen across retries: the outcome of
the n-th attempt for a given prompt. -/
abbrev Backend := ℕ → String → BackendOutcome

/-- The guidelines block of GeminiService._build_prompt. -/
def promptGuidelines : String :=
  "You are an academic assistant for the MCA (Master of Computer Applications) syllabus.\n" ++
  "Answer concisely and accurately using ONLY the provided context.\n" ++
  "If the context is insufficient, say you are not sure and suggest where to look.\n" ++
  "\n" ++
  "Specialized guidance you support:\n" ++
  "- Course structure queries: semesters, subjects, modules, credit distribution.\n" ++
  "- Prerequisite questions: assumed knowledge, required prior courses, skills.\n" ++
  "- Grading system explanations: internal assessment, end-semester exams, weightage.\n" ++
  "- Career guidance: roles and pathways aligned with syllabus topics.\n" ++
  "\n" ++
  "Formatting:\n" ++
  "- Provide a direct answer first.\n" ++
  "- If relevant, add a short bullet list of key points.\n" ++
  "- End with a one-line confidence score: Confidence: <low|medium|high>.\n"

/-- Model of GeminiService._build_prompt. -/
def _build_prompt (question context_text : String) : String :=
  promptGuidelines ++ "\n" ++ "Context:\n" ++ context_text ++ "\n" ++ "\n" ++
    "Question: " ++ question ++ "\n" ++ "Answer:"

/-- Model of GeminiService._estimate_confidence (gemini_service.py lines
86-97). Returns (label, score). -/
def _estimate_confidence (answer_text context_text : String) : String × ℚ :=
  if pyStrip answer_text = "" then ("low", 1 / 5)
  else
    let len_score : ℚ := min ((answer_text.length : ℚ) / 600) 1
    let context_factor : ℚ := if pyStrip context_text = "" then 0 else 1 / 2
    let score : ℚ := 3 / 10 + 1 / 2 * len_score + context_factor
    let score := max 0 (min score 1)
    let label := if score > 3 / 4 then "high" else if score > 1 / 2 then "medium" else "low"
    (label, score)

/-- The second argument of generate_answer is Union[str, List[str]]; a list
is joined with blank lines. -/
def contextToText : String ⊕ List String → String
  | .inl s => s
  | .inr l => pyJoin "\n\n" l

/-- Transient-error classification in generate_answer's except branch:
the lower-cased message contains one of the retry indicators. -/
def isTransientMsg (msg : String) : Bool :=
  let m := pyLower msg
  pyContains m "429" || pyContains m "rate" || pyContains m "temporarily" ||
    pyContains m "deadline" || pyContains m "timeout"

/-- The retry loop of generate_answer (for attempt in range(1, max_attempts+1)).
Arguments: the backend, the prompt, the context text, the current attempt
number, and the remaining number of attempts (fuel). Returns the number of
backend attempts actually made and, on success, the formatted answer with its
confidence score. A transient error consumes the attempt and retries; a
non-transient error breaks out of the loop. -/
def attemptLoop (backend : Backend) (prompt context_text : String) :
    ℕ → ℕ → ℕ × Option (String × ℚ)
  | _, 0 => (0, none)
  | attempt, fuel + 1 =>
    match backend attempt prompt with
    | .ok text =>
      let lc := _estimate_confidence text context_text
      let formatted := pyStrip text
      let formatted :=
        if ¬ pyContains formatted "Confidence:" then
          formatted ++ "\n\nConfidence: " ++ lc.1
        else formatted
      (1, some (formatted, lc.2))
    | .err msg =>
      if isTransientMsg msg then
        let r := attemptLoop backend prompt context_text (attempt + 1) fuel
        (r.1 + 1, r.2)
      else (1, none)

/-- Dictionary returned by generate_answer: answer text and confidence. -/
structure GenResultDict where
  answer : String
  confidence : ℚ
deriving DecidableEq, Repr

/-- Result of one generate_answer call, instrumented with the number of
rate-limiter acquire calls and backend attempts it performed. -/
structure GenCallResult where
  acquires : ℕ
  attempts : ℕ
  result : GenResultDict
deriving DecidableEq, Repr

/-- The fixed fallback answer text returned when all retries are exhausted
or a non-retryable error occurred. -/
def fallbackAnswer : String :=
  "I'm not fully confident based on the provided context. Please provide more details or relevant syllabus excerpts."

/-- Model of GeminiService.generate_answer (gemini_service.py lines 99-143).
The single self.rate_limiter.acquire() happens before the retry loop, so the
acquire count is recorded as 1; the attempt count comes from the loop. When
the loop produces no response (retries exhausted or non-retryable error) the
fixed fallback dictionary with confidence 0.2 is returned. -/
def generate_answer (backend : Backend) (question : String)
    (context : String ⊕ List String) : GenCallResult :=
  let context_text := contextToText context
  let prompt := _build_prompt question context_text
  let r := attemptLoop backend prompt context_text 1 3
  match r.2 with
  | some (ans, conf) => ⟨1, r.1, ⟨ans, conf⟩⟩
  | none => ⟨1, r.1, ⟨fallbackAnswer ++ "\n\nConfidence: low", 1 / 5⟩⟩

/-! ## enhanced_rag.py: data model -/

/-- Chunk metadata dictionary: the keys _build_context reads. Absent keys are
none. -/
structure Meta where
  source : Option String := none
  file_path : Option String := none
  page : Option ℕ := none
  page_number : Option ℕ := none
  page_index : Option ℕ := none
deriving DecidableEq, Repr

/-- A retrieved chunk: (score, content, metadata), score being the
distance-like similarity value. -/
abbrev Chunk := ℚ × String × Meta

/-- Output of _analyze_question: normalized semester tokens and the focus
label. -/
structure Analysis where
  semesters : List String
  focus : String
deriving DecidableEq, Repr

/-- A source reference recorded by _build_context. -/
structure SourceRef where
  index : ℕ
  name : String
  page : Option ℕ
  score : ℚ
deriving DecidableEq, Repr

/-! ## enhanced_rag.py: query analysis -/

/-- Matches one character in the class [1-8]. Returns (matched, rest). -/
def matchDigit18 : List Char → Option (List Char × List Char)
  | c :: rest => if '1' ≤ c ∧ c ≤ '8' then some ([c], rest) else none
  | [] => none

/-- Matches the regex tail \s*[1-8] (greedy whitespace, then one digit). -/
def matchWsDigit (l : List Char) : Option (List Char × List Char) :=
  let ws := l.takeWhile pyIsSpace
  let rest := l.dropWhile pyIsSpace
  match matchDigit18 rest with
  | some (d, r) => some (ws ++ d, r)
  | none => none

/-- Attempts the pattern sem(?:ester)?\s*[1-8] at the head of the character
list (the input has already been lower-cased). The optional group is greedy:
"ester" is consumed when the remainder still matches, with backtracking to
the bare "sem" alternative otherwise. Returns (matched characters, rest). -/
def matchSemAt : List Char → Option (List Char × List Char)
  | 's' :: 'e' :: 'm' :: rest =>
    (match rest with
     | 'e' :: 's' :: 't' :: 'e' :: 'r' :: rest2 =>
       (match matchWsDigit rest2 with
        | some (m, r) => some ('s' :: 'e' :: 'm' :: 'e' :: 's' :: 't' :: 'e' :: 'r' :: m, r)
        | none =>
          match matchWsDigit rest with
          | some (m, r) => some ('s' :: 'e' :: 'm' :: m, r)
          | none => none)
     | _ =>
       match matchWsDigit rest with
       | some (m, r) => some ('s' :: 'e' :: 'm' :: m, r)
       | none => none)
  | _ => none

/-- re.findall scan: walk left to right, emit each non-overlapping match and
resume after its end. Each match consumes at least one character, so a fuel
equal to the input length suffices for the whole scan. -/
def findSemsAux : ℕ → List Char → List (List Char)
  | 0, _ => []
  | _, [] => []
  | fuel + 1, c :: rest =>
    match matchSemAt (c :: rest) with
    | some (m, r) => m :: findSemsAux fuel r
    | none => findSemsAux fuel rest

/-- The focus keyword table of EnhancedRAGService.__init__, in insertion
order (Python dicts iterate in insertion order; the first matching label
wins). -/
def focusKeywords : List (String × List String) :=
  [("credits", ["credit", "ects"]),
   ("prerequisite", ["prerequisite", "prereq", "eligibility"]),
   ("grading", ["grade", "grading", "assessment", "exam"]),
   ("career", ["career", "job", "role"]),
   ("project", ["project", "capstone"])]

/-- Model of EnhancedRAGService._analyze_question (enhanced_rag.py lines
72-80): regex semester extraction over the lower-cased question, then
normalization strip/replace, then first-match focus classification. -/
def _analyze_question (question : String) : Analysis :=
  let lower := pyLower question
  let sems := (findSemsAux lower.data.length lower.data).map
    (fun m => pyReplace (pyReplace (pyStrip (String.mk m)) " " "") "semester" "sem")
  let focus :=
    match focusKeywords.find? (fun p => p.2.any (fun w => pyContains lower w)) with
    | some p => p.1
    | none => "general"
  ⟨sems, focus⟩

/-! ## enhanced_rag.py: query expansion and retrieval -/

/-- Adding to the Python set of variants: ignored when already present.
Python set iteration order is unspecified; the model uses insertion order
(downstream behavior in the claims does not depend on the order). -/
def addVariant (l : List String) (s : String) : List String :=
  if s ∈ l then l else l ++ [s]

/-- Model of EnhancedRAGService._expand_query (enhanced_rag.py lines 52-70). -/
def _expand_query (question : String) : List String :=
  let q := pyStrip question
  let lower := pyLower q
  let v := [q]
  let v := if pyContains lower "credit" then
    addVariant v (q ++ " credit distribution per semester") else v
  let v := if pyContains lower "prereq" || pyContains lower "prerequisite" ||
      pyContains lower "eligibility" then
    addVariant v (q ++ " prerequisites and assumed knowledge") else v
  let v := if pyContains lower "grade" || pyContains lower "assessment" ||
      pyContains lower "exam" then
    addVariant v (q ++ " grading system internal assessment and end-semester weightage") else v
  let v := if pyContains lower "syllabus" || pyContains lower "course" ||
      pyContains lower "semester" then
    addVariant v (q ++ " MCA course structure subjects and modules") else v
  let v := if pyContains lower "career" || pyContains lower "job" ||
      pyContains lower "role" then
    addVariant v (q ++ " career pathways aligned to syllabus topics") else v
  v

/-- The vector store, seen from _retrieve_with_sources: for each query
variant it yields the accumulated (score, content, metadata) triples
(similarity_search_with_score when available, else the scoreless fallback
with placeholder score 1.0; a total retrieval failure yields []). -/
structure RetrievalEnv where
  search : String → List Chunk

/-- Model of EnhancedRAGService._retrieve_with_sources (enhanced_rag.py
lines 82-102): results of all variants, concatenated in variant order. -/
def _retrieve_with_sources (env : RetrievalEnv) (question : String) : List Chunk :=
  (_expand_query question).flatMap env.search

/-! ## enhanced_rag.py: context packing -/

/-- The fixed guidance text of generate_mca_context_prompt (enhanced_rag.py
lines 44-50). -/
def generate_mca_context_prompt : String :=
  "MCA domain context. Prioritize: course structure (semesters, subjects, modules, credits), " ++
  "prerequisites (skills, prior courses), grading (internal assessment, exams, weightage), " ++
  "and career guidance (roles aligned to syllabus topics). Extract concise, factual statements. " ++
  "Prefer the most relevant and recent syllabus details. Include brief bullet lists for enumerations."

/-- The preamble part appended first by _build_context: guidance text plus
the detected focus and semester filter. An empty semester list renders as
"all". -/
def preamblePart (a : Analysis) : String :=
  "Guidance: " ++ generate_mca_context_prompt ++ "\nFocus: " ++ a.focus ++
    " | Semesters: " ++ pyJoin ", " (if a.semesters = [] then ["all"] else a.semesters) ++ "\n"

/-- One step of building the by_hash dictionary (_build_context lines
112-116): the SHA-1 content fingerprint is injective on the contents in play,
so the dictionary is modelled as an association list keyed by the content
itself, in key-insertion order; an existing entry is replaced in place when
the new score is strictly lower. -/
def upsertByContent : List Chunk → Chunk → List Chunk
  | [], it => [it]
  | e :: rest, it =>
    if e.2.1 = it.2.1 then
      (if it.1 < e.1 then it else e) :: rest
    else e :: upsertByContent rest it

/-- Deduplicate the retrieved chunks by content, keeping the better (lower)
score. -/
def dedupByHash (l : List Chunk) : List Chunk :=
  l.foldl upsertByContent []

/-- Stable insertion of a chunk into a score-sorted list: the new element
goes after all elements with score less than or equal to its own, matching
Python's stable sorted(..., key=score) when elements are inserted in
traversal order. -/
def insertByScore (it : Chunk) : List Chunk → List Chunk
  | [] => [it]
  | e :: rest => if it.1 < e.1 then it :: e :: rest else e :: insertByScore it rest

/-- Stable sort of the deduplicated chunks ascending by score (_build_context
line 119). -/
def sortByScore (l : List Chunk) : List Chunk :=
  l.foldl (fun acc it => insertByScore it acc) []

/-- The inner predicate context_mentions_semester (_build_context lines
128-133): true when no semester is requested, else a substring test of each
normalized semester token with its "sem" prefix removed against the
lower-cased chunk text. -/
def contextMentionsSemester (a : Analysis) (text : String) : Bool :=
  if a.semesters = [] then true
  else
    let text_lower := pyLower text
    a.semesters.any (fun sem => pyContains text_lower (pyStrip (pyReplace sem "sem" "")))

/-- Source name resolution in try_append: meta.get("source") or
meta.get("file_path") or "document", with Python falsiness. -/
def chunkName (m : Meta) : String :=
  ((orStr (orStr m.source m.file_path) (some "document")).getD "document")

/-- Page resolution in try_append: meta.get("page") or meta.get("page_number")
or meta.get("page_index"), with Python falsiness (0 is falsy). -/
def chunkPage (m : Meta) : Option ℕ :=
  orNatOpt (orNatOpt m.page m.page_number) m.page_index

/-- The string segment try_append renders for one chunk: the citation header
(index, source name, optional page, score to four decimals), a newline, the
chunk content, a newline. -/
def segmentFor (idx : ℕ) (score : ℚ) (content : String) (m : Meta) : String :=
  let header := "[" ++ toString idx ++ "] Source: " ++ chunkName m
  let header :=
    match chunkPage m with
    | some p => header ++ ", page " ++ toString p
    | none => header
  let header := header ++ " (score: " ++ formatFixed4 score ++ ")"
  header ++ "\n" ++ content ++ "\n"

/-- Mutable state of the packing loop: accumulated context parts, recorded
sources, and the running character total. -/
structure PackState where
  parts : List String
  sources : List SourceRef
  total : ℕ
deriving DecidableEq, Repr

/-- The packing loop of _build_context (lines 151-161): walk the ranked
chunks with a 1-based running enumeration index; skip chunks failing the
semester filter (when active); otherwise append the rendered segment if the
running total stays within the budget and stop at the first overflow
(try_append returning False breaks the loop). -/
def packLoop (mcc : ℕ) (useFilter : Bool) (a : Analysis) :
    List Chunk → ℕ → PackState → PackState
  | [], _, st => st
  | (score, content, meta) :: rest, idx, st =>
    if useFilter && !(contextMentionsSemester a content) then
      packLoop mcc useFilter a rest (idx + 1) st
    else
      if st.total + (segmentFor idx score content meta).length ≤ mcc then
        packLoop mcc useFilter a rest (idx + 1)
          ⟨st.parts ++ [segmentFor idx score content meta],
           st.sources ++ [⟨idx, chunkName meta, chunkPage meta, score⟩],
           st.total + (segmentFor idx score content meta).length⟩
      else st

/-- Counting context blocks per source name (_build_context lines 164-166):
a dictionary in key-insertion order. -/
def bumpCount : List (String × ℕ) → String → List (String × ℕ)
  | [], n => [(n, 1)]
  | (k, c) :: rest, n => if k = n then (k, c + 1) :: rest else (k, c) :: bumpCount rest n

/-- doc_counts built over the recorded sources. -/
def docCounts (sources : List SourceRef) : List (String × ℕ) :=
  sources.foldl (fun acc s => bumpCount acc s.name) []

/-- The trailing per-source summary block (_build_context lines 167-168). -/
def summaryText (sources : List SourceRef) : String :=
  "Document coverage:\n" ++
    pyJoin "\n" ((docCounts sources).map
      (fun p => "- " ++ p.1 ++ ": " ++ toString p.2 ++ " context blocks")) ++ "\n"

/-- Model of EnhancedRAGService._build_context (enhanced_rag.py lines
104-172) with max_context_chars passed explicitly (constructor default 6000).
Empty retrieval returns the empty bundle. Otherwise: deduplicate, sort by
score, seed the state with the guidance preamble (counted against the
budget), run the packing loop with the semester filter when semesters were
requested, rerun it unfiltered if the filtered pass accepted nothing, append
the per-source summary when it fits, and join the parts with newlines,
stripping the result. -/
def _build_context (mcc : ℕ) (retrieved : List Chunk) (a : Analysis) :
    String × List SourceRef :=
  if retrieved = [] then ("", [])
  else
    let sorted_items := sortByScore (dedupByHash retrieved)
    let pre := preamblePart a
    let st0 : PackState := ⟨[pre], [], pre.length⟩
    let applied_filter : Bool := decide (a.semesters ≠ [])
    let st1 := packLoop mcc applied_filter a sorted_items 1 st0
    let st2 :=
      if applied_filter = true ∧ st1.sources = [] then
        packLoop mcc false a sorted_items 1 st1
      else st1
    let final_parts :=
      if st2.sources ≠ [] then
        (if st2.total + (summaryText st2.sources).length ≤ mcc then
          st2.parts ++ [summaryText st2.sources]
        else st2.parts)
      else st2.parts
    (pyStrip (pyJoin "\n" final_parts), st2.sources)

/-! ## enhanced_rag.py: orchestration -/

/-- Model of EnhancedRAGService._generate_follow_up (enhanced_rag.py lines
174-183). -/
def _generate_follow_up (a : Analysis) (sources : List SourceRef) : String :=
  if a.focus = "credits" then "Would you like a semester-by-semester credit comparison?"
  else if a.focus = "prerequisite" then "Should I list bridge courses to meet the prerequisites?"
  else if a.focus = "career" then "Do you want recommendations for internships aligned with these courses?"
  else if sources ≠ [] then "Need more detail from any of the cited documents?"
  else "Would you like to explore related MCA modules?"

/-- Model of EnhancedRAGService._confidence_explanation (enhanced_rag.py
lines 185-190). -/
def _confidence_explanation (confidence : ℚ) (context_count source_count : ℕ) : String :=
  if confidence > 3 / 4 then
    "High confidence based on " ++ toString context_count ++ " context blocks across " ++
      toString source_count ++ " sources."
  else if confidence > 1 / 2 then
    "Moderate confidence: " ++ toString context_count ++ " context blocks from " ++
      toString source_count ++ " sources."
  else
    "Low confidence because only " ++ toString context_count ++ " context blocks were relevant."

/-- The bullet-point post-formatting pass of ask_question (enhanced_rag.py
lines 240-243): when the answer has no "- " marker but contains semicolons,
and splitting on semicolons yields at least three non-blank clauses, rewrite
as a lead line plus bulleted clauses. -/
def postFormat (answer : String) : String :=
  if ¬ pyContains answer "- " ∧ pyContains answer ";" then
    let parts := ((pySplitOnChar answer ';').map pyStrip).filter (fun p => p ≠ "")
    if 3 ≤ parts.length then
      parts.headI ++ "\n" ++ pyJoin "\n" (parts.tail.map (fun p => "- " ++ p))
    else answer
  else answer

/-- The fixed formatting-instruction block appended to the packed context
before generation. -/
def instructionBlock : String :=
  "Formatting instructions:\n" ++
  "- Start with a concise answer paragraph.\n" ++
  "- Use bullet lists for modules/credits/prereqs.\n" ++
  "- Mention semesters explicitly if available.\n" ++
  "- Provide a short concluding recommendation."

/-- The generation client as ask_question sees it: question and packed
context in, answer dictionary out (self.gen.generate_answer). -/
structure GenEnv where
  generate : String → String → GenResultDict

/-- The value returned by ask_question: a Python dictionary whose
confidence_explanation and follow_up keys are present only on some paths,
modelled as optional fields (answer, sources and confidence are present on
every path). -/
structure AskResult where
  answer : String
  sources : List SourceRef
  confidence : ℚ
  confidence_explanation : Option String
  follow_up : Option String
deriving DecidableEq, Repr

/-- Model of EnhancedRAGService.ask_question (enhanced_rag.py lines 192-255),
instrumented with the number of calls made to _retrieve_with_sources and to
the generation client (result, retrieval calls, generation calls). The
max_context_chars parameter is the service field (default 6000). -/
def ask_question (renv : RetrievalEnv) (genv : GenEnv) (mcc : ℕ)
    (question : String) : AskResult × ℕ × ℕ :=
  let question := pyStrip question
  if question = "" then
    (⟨"Please provide a question related to the MCA syllabus.", [], 0, none, none⟩, 0, 0)
  else
    let analysis := _analyze_question question
    let retrieved := _retrieve_with_sources renv question
    let bc := _build_context mcc retrieved analysis
    let context_text := bc.1
    let sources := bc.2
    if context_text = "" ∨ sources = [] then
      (⟨"I don't know based on the available syllabus context. Please provide more details or upload relevant documents.",
        [], 1 / 5,
        some "No relevant syllabus passages were retrieved.",
        some "Upload a syllabus PDF for the semester you're interested in."⟩, 1, 0)
    else
      let prompt_context := context_text ++ "\n\n" ++ instructionBlock
      let gen_result := genv.generate question prompt_context
      let answer := pyStrip gen_result.answer
      let confidence := gen_result.confidence
      let answer := postFormat answer
      let follow_up := _generate_follow_up analysis sources
      let unique_sources := ((sources.map SourceRef.name).dedup).length
      let confidence_expl := _confidence_explanation confidence sources.length unique_sources
      (⟨answer, sources, confidence, some confidence_expl, some follow_up⟩, 1, 1)

/-! ## routers/chat.py: session pruning -/

/-- SESSION_TTL_SECONDS from routers/chat.py line 24. -/
def SESSION_TTL_SECONDS : ℚ := 60 * 60 * 24

/-- Python max(iterable, default=0.0): the maximum of the elements, or the
default when the iterable is empty. -/
def pyMaxD (l : List ℚ) (d : ℚ) : ℚ :=
  match l with
  | [] => d
  | x :: xs => xs.foldl max x

/-- Model of _prune_sessions (routers/chat.py lines 27-38). A session is the
pair of its id and the timestamps of its messages (the only message field the
pruner reads is "ts", defaulted to 0.0). Sessions whose latest message
timestamp is more than the TTL before now are deleted; iteration order of the
store is preserved for the survivors. -/
def _prune_sessions (now : ℚ) (sessions : List (String × List ℚ)) :
    List (String × List ℚ) :=
  sessions.filter (fun s => ¬ (now - pyMaxD s.2 0 > SESSION_TTL_SECONDS))

/-! ## Concrete instances used by the theorems -/

/-- A 5502-character chunk content sized so that the packer's counted total
hits the default budget exactly. -/
def bigChunkContent : String := String.mk (List.replicate 5502 'a')

/-- A vector store with no matching documents. -/
def emptyRetrieval : RetrievalEnv := ⟨fun _ => []⟩

/-- A generation client returning a fixed answer. -/
def constGen : GenEnv := ⟨fun _ _ => ⟨"", 1⟩⟩

/-- A backend raising a transient-looking error on every attempt. -/
def timeoutBackend : Backend := fun _ _ => .err "timeout"

/-- A backend raising a non-transient error on every attempt. -/
def hardErrBackend : Backend := fun _ _ => .err "boom"

/-! ## Helper lemmas -/

theorem sumLens_append (l1 l2 : List String) :
    sumLens (l1 ++ l2) = sumLens l1 + sumLens l2 := by
  simp [sumLens]

theorem pyJoin_length_cons (sep x : String) (l : List String) :
    (pyJoin sep (x :: l)).length = x.length + (sumLens l + sep.length * l.length) := by
  induction l generalizing x with
  | nil => simp [pyJoin, sumLens]
  | cons y ys ih =>
    show (x ++ sep ++ pyJoin sep (y :: ys)).length = _
    rw [String.length_append, String.length_append, ih y]
    simp [sumLens]
    ring

theorem length_dropWhile_le' (p : Char → Bool) (l : List Char) :
    (l.dropWhile p).length ≤ l.length :=
  (List.dropWhile_sublist p).length_le

theorem pyStrip_length_le (s : String) : (pyStrip s).length ≤ s.length := by
  show (String.mk _).length ≤ s.length
  rw [String.length_mk, List.length_reverse]
  calc ((s.data.dropWhile pyIsSpace).reverse.dropWhile pyIsSpace).length
      ≤ (s.data.dropWhile pyIsSpace).reverse.length := length_dropWhile_le' _ _
    _ = (s.data.dropWhile pyIsSpace).length := List.length_reverse _
    _ ≤ s.data.length := length_dropWhile_le' _ _
    _ = s.length := rfl

theorem dropWhileHeadFalse (p : Char → Bool) :
    ∀ (l : List Char) (a : Char) (r : List Char), l.dropWhile p = a :: r → p a = false := by
  intro l
  induction l with
  | nil => intro a r h; simp [List.dropWhile] at h
  | cons c rest ih =>
    intro a r h
    by_cases hc : p c
    · rw [List.dropWhile_cons, if_pos hc] at h
      exact ih a r h
    · rw [List.dropWhile_cons, if_neg hc] at h
      cases h
      exact Bool.of_not_eq_true hc

theorem packLoop_spec (mcc : ℕ) (f : Bool) (a : Analysis) :
    ∀ (items : List Chunk) (idx : ℕ) (st : PackState),
      ∃ segs srcs,
        (packLoop mcc f a items idx st).parts = st.parts ++ segs ∧
        (packLoop mcc f a items idx st).sources = st.sources ++ srcs ∧
        segs.length = srcs.length ∧
        (packLoop mcc f a items idx st).total = st.total + sumLens segs ∧
        (srcs ≠ [] → (packLoop mcc f a items idx st).total ≤ mcc) := by
  intro items
  induction items with
  | nil =>
    intro idx st
    exact ⟨[], [], by simp [packLoop], by simp [packLoop], rfl,
      by simp [packLoop, sumLens], by simp⟩
  | cons hd tl ih =>
    intro idx st
    obtain ⟨score, content, meta⟩ := hd
    by_cases hf : (f && !(contextMentionsSemester a content)) = true
    · have heq : packLoop mcc f a ((score, content, meta) :: tl) idx st
          = packLoop mcc f a tl (idx + 1) st := by
        simp only [packLoop, hf, if_true]
      rw [heq]
      exact ih (idx + 1) st
    · by_cases hb : st.total + (segmentFor idx score content meta).length ≤ mcc
      · have heq : packLoop mcc f a ((score, content, meta) :: tl) idx st
            = packLoop mcc f a tl (idx + 1)
                ⟨st.parts ++ [segmentFor idx score content meta],
                 st.sources ++ [⟨idx, chunkName meta, chunkPage meta, score⟩],
                 st.total + (segmentFor idx score content meta).length⟩ := by
          simp only [packLoop, hf, hb, if_true, if_false, Bool.false_eq_true]
        rw [heq]
        obtain ⟨segs, srcs, h1, h2, h3, h4, h5⟩ := ih (idx + 1)
          ⟨st.parts ++ [segmentFor idx score content meta],
           st.sources ++ [⟨idx, chunkName meta, chunkPage meta, score⟩],
           st.total + (segmentFor idx score content meta).length⟩
        refine ⟨segmentFor idx score content meta :: segs,
          ⟨idx, chunkName meta, chunkPage meta, score⟩ :: srcs, ?_, ?_, ?_, ?_, ?_⟩
        · rw [h1]; simp
        · rw [h2]; simp
        · simp [h3]
        · rw [h4]; simp [sumLens]; ring
        · intro _
          by_cases hs : srcs = []
          · subst hs
            have hsegs : segs = [] := List.length_eq_zero.mp (by simp [h3])
            subst hsegs
            rw [h4]
            simpa [sumLens] using hb
          · exact h5 hs
      · have heq : packLoop mcc f a ((score, content, meta) :: tl) idx st = st := by
          simp only [packLoop, hf, hb, if_false, Bool.false_eq_true]
        rw [heq]
        exact ⟨[], [], by simp, by simp, rfl, by simp [sumLens], by simp⟩

theorem packLoop_indices (mcc : ℕ) (f : Bool) (a : Analysis) :
    ∀ (items : List Chunk) (idx : ℕ) (st : PackState),
      (∀ s ∈ st.sources, s.index < idx) →
      List.Pairwise (fun x y : SourceRef => x.index < y.index) st.sources →
      (∀ s ∈ (packLoop mcc f a items idx st).sources, s.index < idx + items.length) ∧
      List.Pairwise (fun x y : SourceRef => x.index < y.index)
        (packLoop mcc f a items idx st).sources := by
  intro items
  induction items with
  | nil =>
    intro idx st hlt hpw
    refine ⟨fun s hs => ?_, by simpa [packLoop] using hpw⟩
    have h2 : s.index < idx := hlt s (by simpa [packLoop] using hs)
    simpa using h2
  | cons hd tl ih =>
    intro idx st hlt hpw
    obtain ⟨score, content, meta⟩ := hd
    by_cases hf : (f && !(contextMentionsSemester a content)) = true
    · have heq : packLoop mcc f a ((score, content, meta) :: tl) idx st
          = packLoop mcc f a tl (idx + 1) st := by
        simp only [packLoop, hf, if_true]
      rw [heq]
      have h := ih (idx + 1) st (fun s hs => Nat.lt_succ_of_lt (hlt s hs)) hpw
      refine ⟨fun s hs => ?_, h.2⟩
      have h2 := h.1 s hs
      simp only [List.length_cons]
      omega
    · by_cases hb : st.total + (segmentFor idx score content meta).length ≤ mcc
      · have heq : packLoop mcc f a ((score, content, meta) :: tl) idx st
            = packLoop mcc f a tl (idx + 1)
                ⟨st.parts ++ [segmentFor idx score content meta],
                 st.sources ++ [⟨idx, chunkName meta, chunkPage meta, score⟩],
                 st.total + (segmentFor idx score content meta).length⟩ := by
          simp only [packLoop, hf, hb, if_true, if_false, Bool.false_eq_true]
        rw [heq]
        have hlt' : ∀ s ∈ st.sources ++ [(⟨idx, chunkName meta, chunkPage meta, score⟩ : SourceRef)],
            s.index < idx + 1 := by
          intro s hs
          rcases List.mem_append.mp hs with h | h
          · exact Nat.lt_succ_of_lt (hlt s h)
          · simp at h
            subst h
            exact Nat.lt_succ_self idx
        have hpw' : List.Pairwise (fun x y : SourceRef => x.index < y.index)
            (st.sources ++ [⟨idx, chunkName meta, chunkPage meta, score⟩]) := by
          rw [List.pairwise_append]
          exact ⟨hpw, List.pairwise_singleton _ _, by
            intro x hx y hy
            simp at hy
            subst hy
            exact hlt x hx⟩
        have h := ih (idx + 1)
          ⟨st.parts ++ [segmentFor idx score content meta],
           st.sources ++ [⟨idx, chunkName meta, chunkPage meta, score⟩],
           st.total + (segmentFor idx score content meta).length⟩ hlt' hpw'
        refine ⟨fun s hs => ?_, h.2⟩
        have h2 := h.1 s hs
        simp only [List.length_cons]
        omega
      · have heq : packLoop mcc f a ((score, content, meta) :: tl) idx st = st := by
          simp only [packLoop, hf, hb, if_false, Bool.false_eq_true]
        rw [heq]
        exact ⟨fun s hs => Nat.lt_of_lt_of_le (hlt s hs) (Nat.le_add_right _ _), hpw⟩

theorem twoLoop_spec (mcc : ℕ) (a : Analysis) (items : List Chunk) (f : Bool)
    (pre : String) (st2 : PackState)
    (hst2 : st2 =
      (if f = true ∧ (packLoop mcc f a items 1 ⟨[pre], [], pre.length⟩).sources = [] then
        packLoop mcc false a items 1 (packLoop mcc f a items 1 ⟨[pre], [], pre.length⟩)
      else packLoop mcc f a items 1 ⟨[pre], [], pre.length⟩)) :
    ∃ segs, st2.parts = pre :: segs ∧ segs.length = st2.sources.length ∧
      st2.total = pre.length + sumLens segs ∧
      (st2.sources ≠ [] → st2.total ≤ mcc) := by
  obtain ⟨segs1, srcs1, h1, h2, h3, h4, h5⟩ :=
    packLoop_spec mcc f a items 1 ⟨[pre], [], pre.length⟩
  by_cases hc : f = true ∧ (packLoop mcc f a items 1 ⟨[pre], [], pre.length⟩).sources = []
  · rw [hst2, if_pos hc]
    have hsrcs1 : srcs1 = [] := by
      have := hc.2
      rw [h2] at this
      simpa using this
    subst hsrcs1
    have hsegs1 : segs1 = [] := List.length_eq_zero.mp (by simp [h3])
    subst hsegs1
    obtain ⟨segs2, srcs2, g1, g2, g3, g4, g5⟩ :=
      packLoop_spec mcc false a items 1 (packLoop mcc f a items 1 ⟨[pre], [], pre.length⟩)
    refine ⟨segs2, ?_, ?_, ?_, ?_⟩
    · rw [g1, h1]; simp
    · rw [g2, h2]; simp [g3]
    · rw [g4, h4]; simp [sumLens]
    · intro hne
      refine g5 (fun hz => absurd ?_ hne)
      simp [g2, h2, hz]
  · rw [hst2, if_neg hc]
    refine ⟨segs1, ?_, ?_, ?_, ?_⟩
    · rw [h1]; simp
    · rw [h2]; simp [h3]
    · rw [h4]
    · intro hne
      refine h5 (fun hz => absurd ?_ hne)
      simp [h2, hz]

theorem buildContextBound (mcc : ℕ) (pre : String) (a : Analysis) (items : List Chunk)
    (f : Bool) (st2 : PackState)
    (hst2 : st2 =
      (if f = true ∧ (packLoop mcc f a items 1 ⟨[pre], [], pre.length⟩).sources = [] then
        packLoop mcc false a items 1 (packLoop mcc f a items 1 ⟨[pre], [], pre.length⟩)
      else packLoop mcc f a items 1 ⟨[pre], [], pre.length⟩)) :
    (pyStrip (pyJoin "\n"
      (if st2.sources ≠ [] then
        (if st2.total + (summaryText st2.sources).length ≤ mcc then
          st2.parts ++ [summaryText st2.sources]
        else st2.parts)
      else st2.parts))).length ≤ max mcc pre.length + st2.sources.length + 1 := by
  obtain ⟨segs, h1, h2, h3, h4⟩ := twoLoop_spec mcc a items f pre st2 hst2
  have hnl : ("\n" : String).length = 1 := rfl
  by_cases hs : st2.sources = []
  · rw [if_neg (not_not_intro hs)]
    have hsegs : segs = [] := List.length_eq_zero.mp (by rw [h2, hs]; rfl)
    rw [h1, hsegs]
    have : (pyJoin "\n" [pre]) = pre := rfl
    rw [this]
    calc (pyStrip pre).length ≤ pre.length := pyStrip_length_le _
      _ ≤ max mcc pre.length := le_max_right _ _
      _ ≤ max mcc pre.length + st2.sources.length + 1 := by omega
  · rw [if_pos hs]
    have hmcc : st2.total ≤ mcc := h4 hs
    have hlenseg : segs.length = st2.sources.length := h2
    by_cases hsum : st2.total + (summaryText st2.sources).length ≤ mcc
    · rw [if_pos hsum, h1]
      have hcons : (pre :: segs) ++ [summaryText st2.sources]
          = pre :: (segs ++ [summaryText st2.sources]) := by simp
      rw [hcons]
      calc (pyStrip (pyJoin "\n" (pre :: (segs ++ [summaryText st2.sources])))).length
          ≤ (pyJoin "\n" (pre :: (segs ++ [summaryText st2.sources]))).length :=
            pyStrip_length_le _
        _ = pre.length + (sumLens (segs ++ [summaryText st2.sources])
              + 1 * (segs ++ [summaryText st2.sources]).length) := by
            rw [pyJoin_length_cons, hnl]
        _ ≤ max mcc pre.length + st2.sources.length + 1 := by
            rw [sumLens_append]
            have hT : sumLens [summaryText st2.sources] = (summaryText st2.sources).length := by
              simp [sumLens]
            rw [hT]
            have h5 : pre.length + sumLens segs + (summaryText st2.sources).length ≤ mcc := by
              rw [← h3]; exact hsum
            have h6 : mcc ≤ max mcc pre.length := le_max_left _ _
            simp only [List.length_append, List.length_cons, List.length_nil]
            omega
    · rw [if_neg hsum, h1]
      calc (pyStrip (pyJoin "\n" (pre :: segs))).length
          ≤ (pyJoin "\n" (pre :: segs)).length := pyStrip_length_le _
        _ = pre.length + (sumLens segs + 1 * segs.length) := by rw [pyJoin_length_cons, hnl]
        _ ≤ max mcc pre.length + st2.sources.length + 1 := by
            have h5 : pre.length + sumLens segs ≤ mcc := by rw [← h3]; exact hmcc
            have h6 : mcc ≤ max mcc pre.length := le_max_left _ _
            omega

/-- Claim C1 (amended): the counted character total of _build_context
(preamble plus packed segments, plus the summary when it is appended)
respects max_context_chars, but the newline separators that join the parts
are not counted, and when no chunk fits the preamble is returned unbounded;
hence the bundle text length is at most
max(max_context_chars, preamble length) + number of packed sources + 1. -/
theorem C1_budget_amended (mcc : ℕ) (retrieved : List Chunk) (a : Analysis) :
    ((_build_context mcc retrieved a).1).length ≤
      max mcc (preamblePart a).length + ((_build_context mcc retrieved a).2).length + 1 := by
  by_cases hr : retrieved = []
  · simp [_build_context, hr]
  · simp only [_build_context, if_neg hr]
    exact buildContextBound mcc (preamblePart a) a (sortByScore (dedupByHash retrieved))
      (decide (a.semesters ≠ [])) _ rfl

theorem packLoop_nil_eq (mcc : ℕ) (f : Bool) (a : Analysis) (idx : ℕ) (st : PackState) :
    packLoop mcc f a [] idx st = st := rfl

theorem packLoop_cons_eq (mcc : ℕ) (f : Bool) (a : Analysis) (score : ℚ) (content : String)
    (meta : Meta) (rest : List Chunk) (idx : ℕ) (parts : List String)
    (sources : List SourceRef) (total : ℕ) :
    packLoop mcc f a ((score, content, meta) :: rest) idx ⟨parts, sources, total⟩ =
      (if f && !(contextMentionsSemester a content) then
        packLoop mcc f a rest (idx + 1) ⟨parts, sources, total⟩
      else if total + (segmentFor idx score content meta).length ≤ mcc then
        packLoop mcc f a rest (idx + 1)
          ⟨parts ++ [segmentFor idx score content meta],
           sources ++ [⟨idx, chunkName meta, chunkPage meta, score⟩],
           total + (segmentFor idx score content meta).length⟩
      else ⟨parts, sources, total⟩) := rfl

theorem packState_sources (p : List String) (s : List SourceRef) (t : ℕ) :
    (PackState.mk p s t).sources = s := rfl

theorem packState_total (p : List String) (s : List SourceRef) (t : ℕ) :
    (PackState.mk p s t).total = t := rfl

theorem packState_parts (p : List String) (s : List SourceRef) (t : ℕ) :
    (PackState.mk p s t).parts = p := rfl

theorem pyStripLengthOf (s : String)
    (h1 : s.data.dropWhile pyIsSpace = s.data)
    (h2 : ((s.data.reverse).dropWhile pyIsSpace).length = s.data.length - 1) :
    (pyStrip s).length = s.data.length - 1 := by
  show (String.mk _).length = _
  rw [String.length_mk, List.length_reverse, h1, h2]

theorem segBig_eq : segmentFor 1 1 bigChunkContent {}
    = "[1] Source: document (score: 1.0000)" ++ "\n" ++ bigChunkContent ++ "\n" := rfl

theorem preLen412 : (preamblePart ⟨[], "general"⟩).length = 412 := by decide

theorem segLen5540 : (segmentFor 1 1 bigChunkContent {}).length = 5540 := by
  rw [segBig_eq]
  rw [String.length_append, String.length_append, String.length_append]
  rw [show bigChunkContent.length = 5502 from by
    rw [show bigChunkContent = String.mk (List.replicate 5502 'a') from rfl,
      String.length_mk, List.length_replicate]]
  decide

/-- Claim C1 (counterexample): with the default budget of 6000 characters, a
single retrieved chunk of 5502 characters makes the counted total (412-char
preamble + 5540-char segment + 48-char summary) exactly 6000, yet the
returned bundle text is 6001 characters long, because the two joining
newlines are never counted and the final strip removes only the one trailing
newline. This refutes len(text) ≤ max_context_chars. -/
theorem C1_budget_counterexample :
    6000 < ((_build_context 6000 [((1:ℚ), bigChunkContent, ({} : Meta))]
      ⟨[], "general"⟩).1).length := by
  have hne : ¬ ([((1:ℚ), bigChunkContent, ({} : Meta))] : List Chunk) = [] :=
    fun h => List.cons_ne_nil _ _ h
  simp only [_build_context, if_neg hne]
  rw [show (decide (¬([] : List String) = [])) = false from rfl]
  rw [show sortByScore (dedupByHash [((1:ℚ), bigChunkContent, ({} : Meta))])
    = [((1:ℚ), bigChunkContent, ({} : Meta))] from rfl]
  have hst2no : ∀ (P : Prop), ¬ (false = true ∧ P) := fun P h => Bool.false_ne_true h.1
  rw [if_neg (hst2no _)]
  rw [packLoop_cons_eq]
  rw [show (false && !(contextMentionsSemester ⟨[], "general"⟩ bigChunkContent)) = false
    from Bool.false_and _]
  rw [if_neg Bool.false_ne_true]
  rw [packState_total, preLen412, segLen5540]
  rw [if_pos (show 412 + 5540 ≤ 6000 by decide)]
  rw [packLoop_nil_eq]
  rw [packState_sources, packState_parts, packState_total]
  rw [List.nil_append]
  rw [show chunkName ({} : Meta) = "document" from rfl]
  rw [show chunkPage ({} : Meta) = none from rfl]
  rw [if_pos (List.cons_ne_nil _ _)]
  rw [show summaryText [⟨1, "document", none, (1:ℚ)⟩]
    = "Document coverage:\n- document: 1 context blocks\n" from by decide]
  rw [show (("Document coverage:\n- document: 1 context blocks\n" : String)).length = 48
    from by decide]
  rw [if_pos (show 412 + 5540 + 48 ≤ 6000 by decide)]
  rw [List.singleton_append, List.cons_append, List.singleton_append]
  rw [show pyJoin "\n" [preamblePart ⟨[], "general"⟩, segmentFor 1 1 bigChunkContent {},
        "Document coverage:\n- document: 1 context blocks\n"]
      = preamblePart ⟨[], "general"⟩ ++ "\n" ++ (segmentFor 1 1 bigChunkContent {}
        ++ "\n" ++ "Document coverage:\n- document: 1 context blocks\n") from rfl]
  rw [segBig_eq]
  rw [pyStripLengthOf]
  rotate_left
  · rw [String.data_append]
    rw [List.dropWhile_append]
    rw [show ((preamblePart ⟨[], "general"⟩ ++ "\n").data.dropWhile pyIsSpace)
      = (preamblePart ⟨[], "general"⟩ ++ "\n").data from by decide]
    rw [show ((preamblePart ⟨[], "general"⟩ ++ "\n").data).isEmpty = false from by decide]
    rw [if_neg Bool.false_ne_true]
  · simp only [String.data_append, List.reverse_append, List.append_assoc]
    rw [List.dropWhile_append]
    rw [show (List.dropWhile pyIsSpace
        ((("Document coverage:\n- document: 1 context blocks\n" : String)).data.reverse)).isEmpty
      = false from by decide]
    rw [if_neg Bool.false_ne_true]
    simp only [List.length_append, List.length_reverse]
    rw [show (List.dropWhile pyIsSpace
        ((("Document coverage:\n- document: 1 context blocks\n" : String)).data.reverse)).length
      = 47 from by decide]
    rw [show (preamblePart ⟨[], "general"⟩).data.length = 412 from by decide]
    rw [show bigChunkContent.data.length = 5502 from by
      rw [show bigChunkContent.data = List.replicate 5502 'a' from rfl, List.length_replicate]]
    simp only [List.length_cons, List.length_nil]
  simp only [String.data_append, List.length_append]
  rw [show (preamblePart ⟨[], "general"⟩).data.length = 412 from by decide]
  rw [show bigChunkContent.data.length = 5502 from by
    rw [show bigChunkContent.data = List.replicate 5502 'a' from rfl, List.length_replicate]]
  simp only [List.length_cons, List.length_nil]
  omega

/-- Claim C4 (amended): the index recorded for a packed chunk is its 1-based
rank in the score-sorted deduplicated candidate list (the enumerate index),
which matches the bracketed marker in its excerpt header; indices are
strictly increasing in the order excerpts appear in the text, but when the
semester filter skips a ranked chunk the recorded indices skip values too,
so they are not the 1..n positions of the final packing order. -/
theorem C4_indices_amended (mcc : ℕ) (retrieved : List Chunk) (a : Analysis) :
    List.Pairwise (fun x y : SourceRef => x.index < y.index)
      ((_build_context mcc retrieved a).2) := by
  by_cases hr : retrieved = []
  · simp [_build_context, hr]
  · simp only [_build_context, if_neg hr]
    by_cases hc : (decide (a.semesters ≠ [])) = true ∧
        (packLoop mcc (decide (a.semesters ≠ [])) a (sortByScore (dedupByHash retrieved)) 1
          ⟨[preamblePart a], [], (preamblePart a).length⟩).sources = []
    · rw [if_pos hc]
      have h := packLoop_indices mcc false a (sortByScore (dedupByHash retrieved)) 1
        (packLoop mcc (decide (a.semesters ≠ [])) a (sortByScore (dedupByHash retrieved)) 1
          ⟨[preamblePart a], [], (preamblePart a).length⟩)
        (by rw [hc.2]; intro s hs; simp at hs)
        (by rw [hc.2]; exact List.Pairwise.nil)
      exact h.2
    · rw [if_neg hc]
      have h := packLoop_indices mcc (decide (a.semesters ≠ [])) a
        (sortByScore (dedupByHash retrieved)) 1 ⟨[preamblePart a], [], (preamblePart a).length⟩
        (by intro s hs; simp [packState_sources] at hs) (by exact List.Pairwise.nil)
      exact h.2

/-- Claim C4 (counterexample): with an active semester filter ["sem2"], the
best-ranked chunk "alpha" does not mention semester 2 and is skipped, so the
single packed source carries index 2, not the 1-based packing position 1;
the invariant "indices are exactly 1..n in packing order" fails. -/
theorem C4_indices_counterexample :
    (((_build_context 6000 [((1:ℚ), "alpha", ({} : Meta)), ((2:ℚ), "unit 2 details", ({} : Meta))]
      ⟨["sem2"], "general"⟩).2).map SourceRef.index = [2]) ∧ ([2] : List ℕ) ≠ [1] := by
  exact ⟨by decide, by decide⟩

/-- Claim C9 (amended): _build_context returns the empty bundle ("", []) when
the retrieved list is empty; but when chunks were retrieved and none fits
(for instance because the guidance preamble alone fills the budget), the
sources are empty while the returned text is the stripped preamble itself,
not the empty string. -/
theorem C9_empty_amended (mcc : ℕ) (a : Analysis) :
    _build_context mcc [] a = ("", []) ∧
    ∀ retrieved : List Chunk, retrieved ≠ [] →
      (_build_context mcc retrieved a).2 = [] →
      (_build_context mcc retrieved a).1 = pyStrip (preamblePart a) := by
  constructor
  · simp [_build_context]
  · intro retrieved hne hs
    simp only [_build_context, if_neg hne] at hs ⊢
    obtain ⟨segs, h1, h2, h3, h4⟩ := twoLoop_spec mcc a (sortByScore (dedupByHash retrieved))
      (decide (a.semesters ≠ [])) (preamblePart a) _ rfl
    rw [if_neg (not_not_intro hs)]
    have hsegs : segs = [] := List.length_eq_zero.mp (by rw [h2, hs]; rfl)
    rw [h1, hsegs]
    rfl

/-- Claim C9 (counterexample): with max_context_chars = 100 the 412-character
guidance preamble already fills the budget, so no chunk can be packed; the
bundle then has empty sources but non-empty text (the stripped preamble),
refuting "empty text" in that scenario. -/
theorem C9_preamble_counterexample :
    100 < (preamblePart ⟨[], "general"⟩).length ∧
    (_build_context 100 [((1:ℚ), "chunk", ({} : Meta))] ⟨[], "general"⟩).2 = [] ∧
    (_build_context 100 [((1:ℚ), "chunk", ({} : Meta))] ⟨[], "general"⟩).1 ≠ "" := by
  exact ⟨by decide, by decide, by decide⟩

/-- Witness for C9_empty_amended at a concrete input. -/
theorem C9_empty_witness :
    _build_context 100 [] (⟨[], "general"⟩ : Analysis) = ("", []) ∧
    (_build_context 100 [((1:ℚ), "chunk", ({} : Meta))] ⟨[], "general"⟩).1
      = pyStrip (preamblePart ⟨[], "general"⟩) :=
  ⟨(C9_empty_amended 100 ⟨[], "general"⟩).1,
   (C9_empty_amended 100 ⟨[], "general"⟩).2 [((1:ℚ), "chunk", ({} : Meta))]
     (by decide) (by decide)⟩

/-- Claim C2 (amended): in every call to generate_answer the rate limiter's
acquire is invoked exactly once, before the first backend attempt; retries
within the same call do not re-invoke acquire, so the acquire count is 1
regardless of how many of the up-to-3 attempts are made. -/
theorem C2_acquire_once (backend : Backend) (question : String)
    (context : String ⊕ List String) :
    (generate_answer backend question context).acquires = 1 := by
  simp only [generate_answer]
  split <;> rfl

/-- Claim C2 (counterexample): a backend failing with a transient error on
every attempt is attempted 3 times, yet acquire is called once, not 3 times,
refuting "acquire is called n times when the backend is attempted n times". -/
theorem C2_acquire_counterexample :
    (generate_answer timeoutBackend "q" (.inl "c")).attempts = 3 ∧
    (generate_answer timeoutBackend "q" (.inl "c")).acquires ≠ 3 := by
  exact ⟨by decide, by decide⟩

/-- Claim C5: when every backend attempt raises a transient-classified error,
generate_answer makes exactly 3 attempts and returns the fixed fallback
answer with confidence exactly 0.2 (the call always returns a value, never
propagating the exception); a non-transient error on the first attempt
abandons the remaining retries (1 attempt) and yields the same fallback. -/
theorem C5_retry_fallback (backend : Backend) (question : String)
    (context : String ⊕ List String) :
    ((∀ i p, ∃ m, backend i p = .err m ∧ isTransientMsg m = true) →
      (generate_answer backend question context).attempts = 3 ∧
      (generate_answer backend question context).result =
        ⟨fallbackAnswer ++ "\n\nConfidence: low", 1 / 5⟩) ∧
    (∀ m, isTransientMsg m = false →
      (∀ p, backend 1 p = .err m) →
      (generate_answer backend question context).attempts = 1 ∧
      (generate_answer backend question context).result =
        ⟨fallbackAnswer ++ "\n\nConfidence: low", 1 / 5⟩) := by
  constructor
  · intro h
    obtain ⟨m1, h1, t1⟩ := h 1 (_build_prompt question (contextToText context))
    obtain ⟨m2, h2, t2⟩ := h 2 (_build_prompt question (contextToText context))
    obtain ⟨m3, h3, t3⟩ := h 3 (_build_prompt question (contextToText context))
    constructor <;>
      simp [generate_answer, attemptLoop, h1, t1, h2, t2, h3, t3]
  · intro m hm hb
    constructor <;>
      simp [generate_answer, attemptLoop, hb, hm]

/-- Witness for C5_retry_fallback: an always-transient backend makes 3
attempts and falls back; an always-non-transient backend makes 1 attempt and
falls back. -/
theorem C5_retry_fallback_witness :
    ((generate_answer timeoutBackend "q" (.inl "c")).attempts = 3 ∧
      (generate_answer timeoutBackend "q" (.inl "c")).result =
        ⟨fallbackAnswer ++ "\n\nConfidence: low", 1 / 5⟩) ∧
    ((generate_answer hardErrBackend "q" (.inl "c")).attempts = 1 ∧
      (generate_answer hardErrBackend "q" (.inl "c")).result =
        ⟨fallbackAnswer ++ "\n\nConfidence: low", 1 / 5⟩) :=
  ⟨(C5_retry_fallback timeoutBackend "q" (.inl "c")).1
      (fun _ _ => ⟨"timeout", rfl, by decide⟩),
   (C5_retry_fallback hardErrBackend "q" (.inl "c")).2 "boom" (by decide)
      (fun _ => rfl)⟩

/-- Claim C10 (amended): whenever the answer text and the supplied context
text each contain a non-whitespace character, the heuristic confidence score
of _estimate_confidence is at least 0.8 and the label is "high"; the
"medium" and "low" labels are reachable on a successful call only when the
answer or the context is empty or whitespace-only (the code tests the
stripped strings, not raw emptiness). -/
theorem C10_high_confidence (a c : String)
    (ha : pyStrip a ≠ "") (hc : pyStrip c ≠ "") :
    (4 : ℚ) / 5 ≤ (_estimate_confidence a c).2 ∧
    (_estimate_confidence a c).1 = "high" := by
  simp only [_estimate_confidence, if_neg ha, if_neg hc]
  have hm : (0 : ℚ) ≤ min ((a.length : ℚ) / 600) 1 :=
    le_min (by positivity) (by norm_num)
  have hscore : (4 : ℚ) / 5 ≤ min (3 / 10 + 1 / 2 * min ((a.length : ℚ) / 600) 1 + 1 / 2) 1 :=
    le_min (by linarith) (by norm_num)
  constructor
  · exact le_max_of_le_right hscore
  · rw [if_pos]
    have h1 : (3 : ℚ) / 4 < 4 / 5 := by norm_num
    exact lt_of_lt_of_le h1 (le_max_of_le_right hscore)

/-- Witness for C10_high_confidence at a concrete non-blank answer and
context. -/
theorem C10_high_confidence_witness :
    pyStrip "ok" ≠ "" ∧ pyStrip "ctx" ≠ "" ∧
    ((4 : ℚ) / 5 ≤ (_estimate_confidence "ok" "ctx").2 ∧
      (_estimate_confidence "ok" "ctx").1 = "high") :=
  ⟨by decide, by decide, C10_high_confidence "ok" "ctx" (by decide) (by decide)⟩

/-- Claim C10 (counterexample): the whitespace-only answer " " is a
non-empty string and the context "x" is non-empty, yet _estimate_confidence
returns score 0.2 with label "low" (its emptiness test strips the answer
first), refuting "score at least 0.8 for every non-empty answer text". -/
theorem C10_counterexample :
    (" " : String) ≠ "" ∧ ("x" : String) ≠ "" ∧
    _estimate_confidence " " "x" = ("low", 1 / 5) ∧
    ¬ ((4 : ℚ) / 5 ≤ (_estimate_confidence " " "x").2) := by
  refine ⟨by decide, by decide, rfl, ?_⟩
  rw [show _estimate_confidence " " "x" = ("low", 1 / 5) from rfl]
  norm_num

theorem dropWhile_head_false_gen {α : Type} (p : α → Bool) :
    ∀ (l : List α) (a : α) (r : List α), l.dropWhile p = a :: r → p a = false := by
  intro l
  induction l with
  | nil => intro a r h; simp [List.dropWhile] at h
  | cons c rest ih =>
    intro a r h
    by_cases hc : p c
    · rw [List.dropWhile_cons, if_pos hc] at h
      exact ih a r h
    · rw [List.dropWhile_cons, if_neg hc] at h
      cases h
      exact Bool.of_not_eq_true hc

theorem acquire_preserves (m : ℕ) (hm : 1 ≤ m) (w : List ℚ) (t now : ℚ)
    (hle : t ≤ now)
    (hlen : w.length ≤ m + 1)
    (hfull : w.length = m + 1 → w.headI + 60 < t) :
    (acquire m w now).1.length ≤ m + 1 ∧
    ((acquire m w now).1.length = m + 1 →
      (acquire m w now).1.headI + 60 < (acquire m w now).2) := by
  have hprlen : (w.dropWhile (fun ts => decide (now - ts > 60))).length ≤ m := by
    rcases Nat.lt_or_ge w.length (m + 1) with h | h
    · calc (w.dropWhile (fun ts => decide (now - ts > 60))).length
          ≤ w.length := (List.dropWhile_sublist _).length_le
        _ ≤ m := by omega
    · have hw : w.length = m + 1 := le_antisymm hlen h
      have hhead := hfull hw
      cases w with
      | nil => exact absurd hw (by simp)
      | cons h0 rest =>
        have hph0 : (fun ts : ℚ => decide (now - ts > 60)) h0 = true := by
          simp only [decide_eq_true_eq]
          have hh : h0 + 60 < now := lt_of_lt_of_le (by simpa [List.headI] using hhead) hle
          linarith
        rw [List.dropWhile_cons, if_pos hph0]
        have h1 : (rest.dropWhile (fun ts => decide (now - ts > 60))).length ≤ rest.length :=
          (List.dropWhile_sublist _).length_le
        have h2 : rest.length + 1 = m + 1 := by simpa using hw
        omega
  simp only [acquire]
  split
  case isTrue hb =>
    have hplen : (w.dropWhile (fun ts => decide (now - ts > 60))).length = m :=
      le_antisymm hprlen hb
    obtain ⟨h0, rest, hpr0⟩ : ∃ h0 rest,
        w.dropWhile (fun ts => decide (now - ts > 60)) = h0 :: rest := by
      cases hq : w.dropWhile (fun ts => decide (now - ts > 60)) with
      | nil => rw [hq] at hplen; simp at hplen; omega
      | cons x y => exact ⟨x, y, rfl⟩
    have hph0 : (fun ts : ℚ => decide (now - ts > 60)) h0 = false :=
      dropWhile_head_false_gen _ w h0 rest hpr0
    have h60 : now - h0 ≤ 60 := by
      simp only [decide_eq_false_iff_not] at hph0
      exact le_of_not_lt hph0
    have hpos : (0 : ℚ) < 60 - (now - (w.dropWhile (fun ts => decide (now - ts > 60))).headI)
        + 1 / 100 := by
      rw [hpr0]
      simp only [List.headI]
      linarith
    rw [if_pos hpos]
    constructor
    · simp only [List.length_append, List.length_cons, List.length_nil, hplen]
      omega
    · intro _
      rw [hpr0]
      simp only [List.cons_append, List.headI]
      linarith
  case isFalse hb =>
    push_neg at hb
    constructor
    · simp only [List.length_append, List.length_cons, List.length_nil]
      omega
    · intro hl
      simp only [List.length_append, List.length_cons, List.length_nil] at hl
      omega

/-- Claim C3 (amended): after a completed acquire the recorded window can
hold up to max_per_minute + 1 entries (one more than the cap, put there by a
blocked call after its sleep) and entries older than 60 seconds are retained
until the next acquire prunes them; the window length never exceeds
max_per_minute + 1 in any reachable state (max_per_minute ≥ 1). -/
theorem C3_window_bound_amended (m : ℕ) (w : List ℚ) (t : ℚ) (hm : 1 ≤ m)
    (hr : RateReachable m w t) : w.length ≤ m + 1 := by
  suffices h : w.length ≤ m + 1 ∧ (w.length = m + 1 → w.headI + 60 < t) from h.1
  induction hr with
  | init => exact ⟨by simp, fun h => absurd h (by simp +arith)⟩
  | step w' t' now' hr' hle ih => exact acquire_preserves m hm w' t' now' hle ih.1 ih.2

/-- Witness for C3_window_bound_amended at the state after one acquire. -/
theorem C3_window_bound_witness : ((acquire 1 [] 0).1).length ≤ 1 + 1 :=
  C3_window_bound_amended 1 (acquire 1 [] 0).1 (acquire 1 [] 0).2 (by decide)
    (RateReachable.step [] 0 0 RateReachable.init le_rfl)

theorem acq_trace1 : acquire 2 [] 0 = ([0], 0) := by
  norm_num [acquire, List.dropWhile_nil]

theorem acq_trace2 : acquire 2 [0] 0 = ([0, 0], 0) := by
  norm_num [acquire, List.dropWhile_cons, List.dropWhile_nil]

theorem acq_trace3 : acquire 2 [0, 0] 0 = ([0, 0, 6001 / 100], 6001 / 100) := by
  norm_num [acquire, List.dropWhile_cons, List.dropWhile_nil, List.headI]

/-- Claim C3 (counterexample): with max_per_minute = 2, three acquires at
time 0 leave the reachable window [0, 0, 60.01]: its length 3 exceeds the
cap 2, and the entries 0 are older than 60 seconds at the inspection time
60.01 (the blocked third call slept and appended without re-pruning),
refuting both conjuncts of the claimed invariant. -/
theorem C3_window_counterexample :
    RateReachable 2 [0, 0, 6001 / 100] (6001 / 100) ∧
    2 < ([0, 0, (6001 : ℚ) / 100] : List ℚ).length ∧
    ((6001 : ℚ) / 100) - 0 > 60 ∧ (0 : ℚ) ∈ [0, 0, (6001 : ℚ) / 100] := by
  refine ⟨?_, by norm_num, by norm_num, by simp⟩
  have h1 : RateReachable 2 ([] : List ℚ) 0 := RateReachable.init
  have h2 := RateReachable.step ([] : List ℚ) 0 0 h1 le_rfl
  rw [acq_trace1] at h2
  have h3 := RateReachable.step [0] 0 0 h2 le_rfl
  rw [acq_trace2] at h3
  have h4 := RateReachable.step [0, 0] 0 0 h3 le_rfl
  rw [acq_trace3] at h4
  exact h4

/-- Claim C6: an empty or whitespace-only question makes ask_question return
the fixed prompt-for-more-input response with empty sources and confidence
exactly 0.0, making no retrieval call and no generation call. -/
theorem C6_empty_question (renv : RetrievalEnv) (genv : GenEnv) (mcc : ℕ) (q : String)
    (h : pyStrip q = "") :
    ask_question renv genv mcc q =
      (⟨"Please provide a question related to the MCA syllabus.", [], 0, none, none⟩, 0, 0) := by
  simp [ask_question, h]

/-- Witness for C6_empty_question on a whitespace-only question. -/
theorem C6_empty_question_witness :
    pyStrip "  " = "" ∧
    ask_question emptyRetrieval constGen 6000 "  " =
      (⟨"Please provide a question related to the MCA syllabus.", [], 0, none, none⟩, 0, 0) :=
  ⟨by decide, C6_empty_question emptyRetrieval constGen 6000 "  " (by decide)⟩

/-- Claim C7: evaluation of _prune_sessions at the failing input. A session
with no messages gets last timestamp max(default 0.0), so at any clock value
beyond the 86400-second TTL a freshly created empty session is deleted
immediately, instead of surviving until the TTL has elapsed since its
creation as the specification requires (the store records no creation
time). -/
theorem C7_empty_session_pruned :
    _prune_sessions 100000 [("s", [])] = [] := by
  norm_num [_prune_sessions, List.filter, pyMaxD, SESSION_TTL_SECONDS]

/-- Claim C8 (amended): for every non-blank question the ask_question result
carries all five fields (answer, sources and confidence are structural;
confidence_explanation and follow_up are present on both the
insufficient-context path and the generation path); only the empty-question
short-circuit returns a dictionary without the last two fields. -/
theorem C8_fields_amended (renv : RetrievalEnv) (genv : GenEnv) (mcc : ℕ) (q : String)
    (h : ¬ pyStrip q = "") :
    ((ask_question renv genv mcc q).1.confidence_explanation.isSome = true) ∧
    ((ask_question renv genv mcc q).1.follow_up.isSome = true) := by
  simp only [ask_question, if_neg h]
  split <;> simp

/-- Witness for C8_fields_amended at a concrete question and environment. -/
theorem C8_fields_witness :
    ¬ pyStrip "hi" = "" ∧
    (((ask_question emptyRetrieval constGen 6000 "hi").1.confidence_explanation.isSome = true) ∧
     ((ask_question emptyRetrieval constGen 6000 "hi").1.follow_up.isSome = true)) :=
  ⟨by decide, C8_fields_amended emptyRetrieval constGen 6000 "hi" (by decide)⟩

/-- Claim C8 (counterexample): on the empty-question path the returned
dictionary has no confidence_explanation and no follow_up key, refuting
"contains all five fields ... including on the empty-question path". -/
theorem C8_fields_counterexample :
    (ask_question emptyRetrieval constGen 6000 "").1.confidence_explanation = none ∧
    (ask_question emptyRetrieval constGen 6000 "").1.follow_up = none := by
  exact ⟨by decide, by decide⟩
